import Mathlib

/-! Verification development for the duplicate-detector Telegram bot
(`src/bot.js` and its deployment variants `src/unnamed/part_000` ..
`part_002`).  The data model and the operations are translated from the
JavaScript source into executable Lean definitions; the theorems below
settle the specification claims against them. -/

namespace SpamBot

/-- Media kinds used by the bot: the JavaScript strings `photo`, `video`,
`document` and `text`. -/
inductive MediaType
  | photo
  | video
  | document
  | text
deriving DecidableEq

/-- Fingerprints are JavaScript strings, modelled as lists of characters. -/
abbrev Hash := List Char

/-- From `bot.js` `hashMedia` / `findSimilarMedia`: photos and (image-) documents
use perceptual hashing and the tolerant scan, everything else the exact branch. -/
def isPerceptualType : MediaType → Bool
  | MediaType.photo => true
  | MediaType.document => true
  | _ => false

/-- From `bot.js` `calculateHashDistance` (lines 111-123): the positionwise
mismatch count between two equal-length strings; `none` models the JavaScript
`Infinity` returned when either string is falsy (empty) or the lengths differ. -/
def calculateHashDistance (hash1 hash2 : Hash) : Option Nat :=
  if hash1.isEmpty || hash2.isEmpty || hash1.length != hash2.length then
    none
  else
    some ((hash1.zip hash2).countP (fun p => p.1 != p.2))

/-- The comparison `distance <= threshold` of the JS code; `Infinity <= t`
is false for every `t`. -/
def distLE : Option Nat → Nat → Bool
  | none, _ => false
  | some d, t => decide (d ≤ t)

/-- The default `similarityThreshold` parameter of `findSimilarMedia`
(`bot.js` line 126). -/
def defaultSimilarityThreshold : Nat := 5

/-- The grid-size argument passed to the external image-hash library
(`imageHash.imageHash(media, 16, true, ...)`, `bot.js` line 58). -/
def perceptualGridSize : Nat := 16

/-- Modelled from the spec: the external image-hash library called with grid
size 16 produces a 16 x 16 perceptual fingerprint, one bit per grid cell;
the library itself is not part of this repository. -/
def perceptualHashBits : Nat := perceptualGridSize * perceptualGridSize

/-- Modelled from the spec: the 256-bit cryptographic sha-256 content digest
computed by the external `crypto` library ("fall back to a cryptographic
content digest ... exact-match only").  The external digest is modelled as an
injective (collision-free) encoding of the raw bytes. -/
def cryptoHash : List Nat → Hash
  | [] => []
  | b :: rest => List.replicate b 'x' ++ '|' :: cryptoHash rest

/-- Outcome of the external image-hash library callback: either a perceptual
hash string or an error. -/
inductive PerceptualOutcome
  | ok (hash : Hash)
  | err
deriving DecidableEq

/-- From `bot.js` `hashMedia` (lines 45-75): photos and image-documents are
perceptually hashed, with a crypto-digest fallback when the library reports an
error; every other kind gets the crypto digest directly.  The promise always
resolves, so the function is total. -/
def hashMedia (buffer : List Nat) (mediaType : MediaType) (po : PerceptualOutcome) : Hash :=
  if isPerceptualType mediaType then
    match po with
    | PerceptualOutcome.ok h => h
    | PerceptualOutcome.err => cryptoHash buffer
  else
    cryptoHash buffer

/-- A document of the `media` collection (`bot.js` lines 398-406). -/
structure MediaRecord where
  hash : Hash
  originalMessageId : Nat
  userId : Nat
  username : String
  mediaType : MediaType
  timestamp : Nat
  chatId : Int
deriving DecidableEq

/-- The scan loop of `findSimilarMedia` (`bot.js` lines 140-149): the two
mutable variables `mostSimilar` and `lowestDistance` are threaded through the
recursion; a record is taken when its distance is within the threshold and
strictly below the current best. -/
def findLoop (h : Hash) (t : Nat) :
    List MediaRecord → Option MediaRecord → Nat → Option MediaRecord × Nat
  | [], best, lowest => (best, lowest)
  | m :: rest, best, lowest =>
    match calculateHashDistance h m.hash with
    | none => findLoop h t rest best lowest
    | some d =>
      if d ≤ t ∧ d < lowest then findLoop h t rest (some m) d
      else findLoop h t rest best lowest

/-- From `bot.js` `findSimilarMedia` (lines 126-152): non-perceptual kinds use
an exact `findOne \x7b hash \x7d` lookup over the whole collection; perceptual kinds
scan the photo/document records with `lowestDistance` starting at
`threshold + 1`. -/
def findSimilarMedia (store : List MediaRecord) (h : Hash) (mediaType : MediaType)
    (similarityThreshold : Nat) : Option MediaRecord :=
  if isPerceptualType mediaType = false then
    store.find? (fun m => m.hash == h)
  else
    (findLoop h similarityThreshold
      (store.filter (fun m => isPerceptualType m.mediaType))
      none (similarityThreshold + 1)).1

theorem distLE_true_iff (o : Option Nat) (t : Nat) :
    distLE o t = true ↔ ∃ d, o = some d ∧ d ≤ t := by
  cases o with
  | none => simp [distLE]
  | some d => simp [distLE]

theorem calculateHashDistance_some_length {h1 h2 : Hash} {d : Nat}
    (h : calculateHashDistance h1 h2 = some d) : h1.length = h2.length := by
  by_cases hc : (h1.isEmpty || h2.isEmpty || h1.length != h2.length) = true
  · simp [calculateHashDistance, hc] at h
  · by_contra hne
    exact hc (by simp [hne])

theorem calculateHashDistance_length_ne {h1 h2 : Hash}
    (h : h1.length ≠ h2.length) : calculateHashDistance h1 h2 = none := by
  have : (h1.length != h2.length) = true := by simpa using h
  simp [calculateHashDistance, this]

theorem findLoop_main (h : Hash) (t : Nat) :
    ∀ (l : List MediaRecord) (best : Option MediaRecord) (lowest : Nat),
    (findLoop h t l best lowest = (best, lowest) ∧
      ∀ m ∈ l, ∀ d, calculateHashDistance h m.hash = some d → ¬(d ≤ t ∧ d < lowest)) ∨
    (∃ pre r post,
      l = pre ++ r :: post ∧
      (findLoop h t l best lowest).1 = some r ∧
      calculateHashDistance h r.hash = some (findLoop h t l best lowest).2 ∧
      (findLoop h t l best lowest).2 ≤ t ∧
      (findLoop h t l best lowest).2 < lowest ∧
      (∀ m ∈ pre, ∀ d, calculateHashDistance h m.hash = some d →
        (findLoop h t l best lowest).2 < d) ∧
      (∀ m ∈ post, ∀ d, calculateHashDistance h m.hash = some d →
        (findLoop h t l best lowest).2 ≤ d)) := by
  intro l
  induction l with
  | nil =>
    intro best lowest
    left
    exact ⟨rfl, by simp⟩
  | cons m rest ih =>
    intro best lowest
    cases hcalc : calculateHashDistance h m.hash with
    | none =>
      have hstep : findLoop h t (m :: rest) best lowest = findLoop h t rest best lowest := by
        simp [findLoop, hcalc]
      rcases ih best lowest with ⟨heq, hnone⟩ | ⟨pre, r, post, hsplit, hfst, hdist, hle, hlt, hpre, hpost⟩
      · left
        refine ⟨by rw [hstep, heq], ?_⟩
        intro m' hm' d hd
        rcases List.mem_cons.mp hm' with hm' | hm'
        · subst hm'; rw [hcalc] at hd; exact absurd hd (by simp)
        · exact hnone m' hm' d hd
      · right
        refine ⟨m :: pre, r, post, by simp [hsplit], ?_, ?_, ?_, ?_, ?_, ?_⟩
        · rw [hstep]; exact hfst
        · rw [hstep]; exact hdist
        · rw [hstep]; exact hle
        · rw [hstep]; exact hlt
        · intro m' hm' d hd
          rcases List.mem_cons.mp hm' with hm' | hm'
          · subst hm'; rw [hcalc] at hd; exact absurd hd (by simp)
          · rw [hstep]; exact hpre m' hm' d hd
        · intro m' hm' d hd
          rw [hstep]; exact hpost m' hm' d hd
    | some d =>
      by_cases hcond : d ≤ t ∧ d < lowest
      · have hstep : findLoop h t (m :: rest) best lowest = findLoop h t rest (some m) d := by
          simp [findLoop, hcalc, hcond]
        rcases ih (some m) d with ⟨heq, hnone⟩ | ⟨pre, r, post, hsplit, hfst, hdist, hle, hlt, hpre, hpost⟩
        · right
          refine ⟨[], m, rest, by simp, ?_, ?_, ?_, ?_, ?_, ?_⟩
          · rw [hstep, heq]
          · rw [hstep, heq]; exact hcalc
          · rw [hstep, heq]; exact hcond.1
          · rw [hstep, heq]; exact hcond.2
          · intro m' hm'; simp at hm'
          · intro m' hm' d' hd'
            rw [hstep, heq]
            have := hnone m' hm' d' hd'
            rcases Nat.lt_or_ge t d' with hgt | hge
            · exact le_of_lt (lt_of_le_of_lt hcond.1 hgt)
            · by_contra hlt'
              exact this ⟨by omega, by omega⟩
        · right
          refine ⟨m :: pre, r, post, by simp [hsplit], ?_, ?_, ?_, ?_, ?_, ?_⟩
          · rw [hstep]; exact hfst
          · rw [hstep]; exact hdist
          · rw [hstep]; exact hle
          · calc (findLoop h t (m :: rest) best lowest).2
                = (findLoop h t rest (some m) d).2 := by rw [hstep]
              _ < d := hlt
              _ < lowest := hcond.2
          · intro m' hm' d' hd'
            rcases List.mem_cons.mp hm' with hm' | hm'
            · subst hm'
              have hdd : d = d' := Option.some.inj (hcalc.symm.trans hd')
              rw [hstep]
              omega
            · rw [hstep]; exact hpre m' hm' d' hd'
          · intro m' hm' d' hd'
            rw [hstep]; exact hpost m' hm' d' hd'
      · have hstep : findLoop h t (m :: rest) best lowest = findLoop h t rest best lowest := by
          simp [findLoop, hcalc, hcond]
        rcases ih best lowest with ⟨heq, hnone⟩ | ⟨pre, r, post, hsplit, hfst, hdist, hle, hlt, hpre, hpost⟩
        · left
          refine ⟨by rw [hstep, heq], ?_⟩
          intro m' hm' d' hd'
          rcases List.mem_cons.mp hm' with hm' | hm'
          · subst hm'
            have hdd : d = d' := Option.some.inj (hcalc.symm.trans hd')
            omega
          · exact hnone m' hm' d' hd'
        · right
          refine ⟨m :: pre, r, post, by simp [hsplit], ?_, ?_, ?_, ?_, ?_, ?_⟩
          · rw [hstep]; exact hfst
          · rw [hstep]; exact hdist
          · rw [hstep]; exact hle
          · rw [hstep]; exact hlt
          · intro m' hm' d' hd'
            rcases List.mem_cons.mp hm' with hm' | hm'
            · subst hm'
              have hdd : d = d' := Option.some.inj (hcalc.symm.trans hd')
              rw [hstep]
              omega
            · rw [hstep]; exact hpre m' hm' d' hd'
          · intro m' hm' d' hd'
            rw [hstep]; exact hpost m' hm' d' hd'

/-- C1: for an image-kind query, `findSimilarMedia` scans the stored
perceptual-kind records and returns the record whose distance to the query
fingerprint is smallest and at most the threshold, breaking ties by earliest
`timestamp` (the store is scanned in insertion order, so with monotone
timestamps the first poster wins); it returns `none` exactly when no stored
perceptual record is within the threshold. -/
theorem C1_findSimilarMedia_best_first_match
    (store : List MediaRecord) (h : Hash) (mt : MediaType) (t : Nat)
    (hmt : isPerceptualType mt = true)
    (hmono : store.Pairwise (fun a b => a.timestamp ≤ b.timestamp)) :
    (findSimilarMedia store h mt t = none ↔
      ∀ m ∈ store, isPerceptualType m.mediaType = true →
        distLE (calculateHashDistance h m.hash) t = false) ∧
    (∀ r, findSimilarMedia store h mt t = some r →
      r ∈ store ∧ isPerceptualType r.mediaType = true ∧
      ∃ d, calculateHashDistance h r.hash = some d ∧ d ≤ t ∧
        (∀ m ∈ store, isPerceptualType m.mediaType = true →
          ∀ d', calculateHashDistance h m.hash = some d' → d ≤ d') ∧
        (∀ m ∈ store, isPerceptualType m.mediaType = true →
          calculateHashDistance h m.hash = some d → r.timestamp ≤ m.timestamp)) := by
  have hdef : findSimilarMedia store h mt t =
      (findLoop h t (store.filter (fun m => isPerceptualType m.mediaType))
        none (t + 1)).1 := by
    simp [findSimilarMedia, hmt]
  have hmonoL : (store.filter (fun m => isPerceptualType m.mediaType)).Pairwise
      (fun a b => a.timestamp ≤ b.timestamp) :=
    List.Pairwise.sublist (List.filter_sublist store) hmono
  rcases findLoop_main h t (store.filter (fun m => isPerceptualType m.mediaType))
      none (t + 1) with
    ⟨heq, hnone⟩ | ⟨pre, r0, post, hsplit, hfst, hdist, hle, hlt, hpre, hpost⟩
  · constructor
    · constructor
      · intro _ m hm hperc
        have hmL : m ∈ store.filter (fun m => isPerceptualType m.mediaType) :=
          List.mem_filter.mpr ⟨hm, hperc⟩
        cases hc : calculateHashDistance h m.hash with
        | none => simp [distLE]
        | some d =>
          have := hnone m hmL d hc
          simp only [distLE, decide_eq_false_iff_not]
          omega
      · intro _
        rw [hdef, heq]
    · intro r hr
      rw [hdef, heq] at hr
      exact absurd hr (by simp)
  · have hr0L : r0 ∈ store.filter (fun m => isPerceptualType m.mediaType) := by
      rw [hsplit]
      exact List.mem_append.mpr (Or.inr (List.mem_cons_self _ _))
    have hr0store := List.mem_filter.mp hr0L
    constructor
    · constructor
      · intro hres
        rw [hdef] at hres
        rw [hfst] at hres
        exact absurd hres (by simp)
      · intro hall
        exfalso
        have := hall r0 hr0store.1 hr0store.2
        rw [hdist] at this
        simp only [distLE, decide_eq_false_iff_not] at this
        exact this hle
    · intro r hr
      rw [hdef] at hr
      rw [hfst] at hr
      have hrr : r = r0 := (Option.some.inj hr).symm
      subst hrr
      refine ⟨hr0store.1, hr0store.2,
        (findLoop h t (store.filter (fun m => isPerceptualType m.mediaType))
          none (t + 1)).2, hdist, hle, ?_, ?_⟩
      · intro m hm hperc d' hd'
        have hmL : m ∈ store.filter (fun m => isPerceptualType m.mediaType) :=
          List.mem_filter.mpr ⟨hm, hperc⟩
        rw [hsplit] at hmL
        rcases List.mem_append.mp hmL with hmL | hmL
        · exact le_of_lt (hpre m hmL d' hd')
        · rcases List.mem_cons.mp hmL with hmL | hmL
          · subst hmL
            have := Option.some.inj (hdist.symm.trans hd')
            omega
          · exact hpost m hmL d' hd'
      · intro m hm hperc hd'
        have hmL : m ∈ store.filter (fun m => isPerceptualType m.mediaType) :=
          List.mem_filter.mpr ⟨hm, hperc⟩
        rw [hsplit] at hmL
        rcases List.mem_append.mp hmL with hmL | hmL
        · exact absurd (hpre m hmL _ hd') (by omega)
        · rcases List.mem_cons.mp hmL with hmL | hmL
          · subst hmL; exact le_refl _
          · have hpair := hmonoL
            rw [hsplit] at hpair
            have := (List.pairwise_append.mp hpair).2.1
            exact (List.pairwise_cons.mp this).1 m hmL

/-- C1 witness: a concrete two-record store (two photos with identical hashes,
posted at times 10 and 20) on which the theorem applies; the tie is broken in
favour of the earlier record. -/
theorem C1_witness :
    isPerceptualType MediaType.photo = true ∧
    ([⟨['a', 'b'], 1, 100, "alice", MediaType.photo, 10, 1⟩,
      ⟨['a', 'b'], 2, 200, "bob", MediaType.photo, 20, 1⟩] :
        List MediaRecord).Pairwise (fun a b => a.timestamp ≤ b.timestamp) ∧
    findSimilarMedia
      [⟨['a', 'b'], 1, 100, "alice", MediaType.photo, 10, 1⟩,
       ⟨['a', 'b'], 2, 200, "bob", MediaType.photo, 20, 1⟩]
      ['a', 'b'] MediaType.photo 5 =
      some ⟨['a', 'b'], 1, 100, "alice", MediaType.photo, 10, 1⟩ ∧
    (findSimilarMedia
      [⟨['a', 'b'], 1, 100, "alice", MediaType.photo, 10, 1⟩,
       ⟨['a', 'b'], 2, 200, "bob", MediaType.photo, 20, 1⟩]
      ['a', 'b'] MediaType.photo 5 = none ↔
      ∀ m ∈ ([⟨['a', 'b'], 1, 100, "alice", MediaType.photo, 10, 1⟩,
              ⟨['a', 'b'], 2, 200, "bob", MediaType.photo, 20, 1⟩] : List MediaRecord),
        isPerceptualType m.mediaType = true →
        distLE (calculateHashDistance ['a', 'b'] m.hash) 5 = false) := by
  refine ⟨by decide, by decide, by decide, ?_⟩
  exact (C1_findSimilarMedia_best_first_match
    [⟨['a', 'b'], 1, 100, "alice", MediaType.photo, 10, 1⟩,
     ⟨['a', 'b'], 2, 200, "bob", MediaType.photo, 20, 1⟩]
    ['a', 'b'] MediaType.photo 5 (by decide) (by decide)).1

/-- The Hamming distance as the spec's glossary words it: the count of
differing positions between two equal-length strings.  Stated independently of
the source, for comparison with `calculateHashDistance`. -/
def hammingDistance (a b : List Char) : Nat :=
  (a.zip b).countP (fun p => p.1 != p.2)

/-- C2: perceptual fingerprints are 16 x 16 = 256-bit values, the distance used
for matching is the count of differing positions between equal-length (nonempty)
fingerprint strings, the default threshold is 5, and fingerprints of unequal
length are incomparable (JavaScript `Infinity`) and never satisfy any
threshold; consequently a perceptual match always has the query's
fingerprint length. -/
theorem C2_fingerprint_distance_threshold :
    perceptualHashBits = 256 ∧
    defaultSimilarityThreshold = 5 ∧
    (∀ h1 h2 : Hash, h1 ≠ [] → h2 ≠ [] → h1.length = h2.length →
      calculateHashDistance h1 h2 = some (hammingDistance h1 h2)) ∧
    (∀ (h1 h2 : Hash) (t : Nat), h1.length ≠ h2.length →
      distLE (calculateHashDistance h1 h2) t = false) ∧
    (∀ (store : List MediaRecord) (h : Hash) (t : Nat) (r : MediaRecord),
      findSimilarMedia store h MediaType.photo t = some r →
      r.hash.length = h.length) := by
  refine ⟨by decide, by decide, ?_, ?_, ?_⟩
  · intro h1 h2 hne1 hne2 hlen
    have he1 : h1.isEmpty = false := by
      cases h1 with
      | nil => exact absurd rfl hne1
      | cons a l => rfl
    have he2 : h2.isEmpty = false := by
      cases h2 with
      | nil => exact absurd rfl hne2
      | cons a l => rfl
    simp [calculateHashDistance, hammingDistance, he1, he2, hlen]
  · intro h1 h2 t hlen
    rw [calculateHashDistance_length_ne hlen]
    rfl
  · intro store h t r hr
    have hdef : findSimilarMedia store h MediaType.photo t =
        (findLoop h t (store.filter (fun m => isPerceptualType m.mediaType))
          none (t + 1)).1 := by
      simp [findSimilarMedia, isPerceptualType]
    rw [hdef] at hr
    rcases findLoop_main h t (store.filter (fun m => isPerceptualType m.mediaType))
        none (t + 1) with ⟨heq, _⟩ | ⟨_, r0, _, _, hfst, hdist, _, _, _, _⟩
    · rw [heq] at hr
      exact absurd hr (by simp)
    · rw [hfst] at hr
      have hrr : r = r0 := (Option.some.inj hr).symm
      subst hrr
      exact (calculateHashDistance_some_length hdist).symm

/-- C2 witness: the theorem's quantified parts applied at concrete
fingerprints. -/
theorem C2_witness :
    calculateHashDistance ['a', 'b'] ['a', 'c'] =
      some (hammingDistance ['a', 'b'] ['a', 'c']) ∧
    distLE (calculateHashDistance ['a'] ['a', 'b']) 500 = false := by
  constructor
  · exact C2_fingerprint_distance_threshold.2.2.1 ['a', 'b'] ['a', 'c']
      (by decide) (by decide) (by decide)
  · exact C2_fingerprint_distance_threshold.2.2.2.1 ['a'] ['a', 'b'] 500 (by decide)

theorem replicate_sep_inj {b1 b2 : Nat} {t1 t2 : List Char}
    (h : List.replicate b1 'x' ++ '|' :: t1 = List.replicate b2 'x' ++ '|' :: t2) :
    b1 = b2 ∧ t1 = t2 := by
  induction b1 generalizing b2 with
  | zero =>
    cases b2 with
    | zero =>
      simp only [List.replicate, List.nil_append] at h
      exact ⟨rfl, (List.cons.inj h).2⟩
    | succ n =>
      simp only [List.replicate, List.nil_append, List.cons_append] at h
      exact absurd (List.cons.inj h).1 (by decide)
  | succ n ih =>
    cases b2 with
    | zero =>
      simp only [List.replicate, List.nil_append, List.cons_append] at h
      exact absurd (List.cons.inj h).1 (by decide)
    | succ m =>
      simp only [List.replicate, List.cons_append] at h
      have := ih (List.cons.inj h).2
      exact ⟨by rw [this.1], this.2⟩

/-- The modelled digest is collision-free: equal digests force byte-identical
buffers (the spec's "exact-match only" reading of the cryptographic digest). -/
theorem cryptoHash_inj : ∀ {l1 l2 : List Nat}, cryptoHash l1 = cryptoHash l2 → l1 = l2 := by
  intro l1
  induction l1 with
  | nil =>
    intro l2 h
    cases l2 with
    | nil => rfl
    | cons b rest =>
      simp only [cryptoHash] at h
      exact absurd h (by
        intro hc
        have hlen := congrArg List.length hc
        simp only [List.length_nil, List.length_append, List.length_replicate,
          List.length_cons] at hlen
        omega)
  | cons b rest ih =>
    intro l2 h
    cases l2 with
    | nil =>
      simp only [cryptoHash] at h
      exact absurd h (by
        intro hc
        have hlen := congrArg List.length hc
        simp only [List.length_nil, List.length_append, List.length_replicate,
          List.length_cons] at hlen
        omega)
    | cons b2 rest2 =>
      simp only [cryptoHash] at h
      have := replicate_sep_inj h
      rw [this.1, ih this.2]

/-- A document of the `userStats` collection (`bot.js` lines 195-206).  Numeric
fields that MongoDB would leave absent (and treat as 0 under `$inc`) are
modelled as 0. -/
structure UserStats where
  userId : Nat
  username : String
  photoCount : Nat
  videoCount : Nat
  documentCount : Nat
  textCount : Nat
  duplicatesPosted : Nat
  totalMessages : Nat
  firstSeen : Nat
  lastActive : Nat
deriving DecidableEq

/-- MongoDB `updateOne`: apply `f` to the first document matching the user id. -/
def updateFirst (stats : List UserStats) (uid : Nat) (f : UserStats → UserStats) :
    List UserStats :=
  match stats with
  | [] => []
  | u :: rest => if u.userId == uid then f u :: rest else u :: updateFirst rest uid f

/-- The dynamic `$inc` field name `mediaType + "Count"` of
`updateUserStatistics`. -/
def kindCountInc (mt : MediaType) (u : UserStats) : UserStats :=
  match mt with
  | MediaType.photo => { u with photoCount := u.photoCount + 1 }
  | MediaType.video => { u with videoCount := u.videoCount + 1 }
  | MediaType.document => { u with documentCount := u.documentCount + 1 }
  | MediaType.text => { u with textCount := u.textCount + 1 }

/-- The fresh `userStats` document inserted by `updateUserStatistics` for a
first-time user (`bot.js` lines 195-206). -/
def freshUserStats (uid : Nat) (uname : String) (mt : MediaType) (now : Nat) : UserStats :=
  { userId := uid, username := uname,
    photoCount := if mt == MediaType.photo then 1 else 0,
    videoCount := if mt == MediaType.video then 1 else 0,
    documentCount := if mt == MediaType.document then 1 else 0,
    textCount := if mt == MediaType.text then 1 else 0,
    duplicatesPosted := 0, totalMessages := 1, firstSeen := now, lastActive := now }

/-- From `bot.js` `updateUserStatistics` (lines 174-208): increment the per-kind
counter and `totalMessages` of an existing user, or insert a fresh document with
`totalMessages = 1`. -/
def updateUserStatistics (stats : List UserStats) (uid : Nat) (uname : String)
    (mt : MediaType) (now : Nat) : List UserStats :=
  match stats.find? (fun u => u.userId == uid) with
  | some _ =>
    updateFirst stats uid (fun u =>
      { kindCountInc mt u with
          totalMessages := u.totalMessages + 1, username := uname, lastActive := now })
  | none => stats ++ [freshUserStats uid uname mt now]

/-- The document created by `trackDuplicate`'s upsert for a user with no
statistics row yet: only the `$inc`/`$set` fields are present, the other
numeric fields are absent (modelled 0). -/
def dupFreshUserStats (uid : Nat) (uname : String) (now : Nat) : UserStats :=
  { userId := uid, username := uname, photoCount := 0, videoCount := 0,
    documentCount := 0, textCount := 0, duplicatesPosted := 1, totalMessages := 0,
    firstSeen := 0, lastActive := now }

/-- The `userStats` part of `bot.js` `trackDuplicate` (lines 211-230): an
upsert that increments `duplicatesPosted`; the upserted document carries only
the `$inc`/`$set` fields, all other numeric fields are absent (modelled 0). -/
def trackDuplicateStats (stats : List UserStats) (uid : Nat) (uname : String)
    (now : Nat) : List UserStats :=
  match stats.find? (fun u => u.userId == uid) with
  | some _ =>
    updateFirst stats uid (fun u =>
      { u with duplicatesPosted := u.duplicatesPosted + 1,
               username := uname, lastActive := now })
  | none => stats ++ [dupFreshUserStats uid uname now]

/-- A document of the `duplicateTracking` collection (`bot.js` lines 225-229). -/
structure DuplicateEvent where
  userId : Nat
  username : String
  timestamp : Nat
deriving DecidableEq

/-- A document of the `textMessages` collection of the deployment variants
(`part_000` lines 766-772); `bot.js` itself never writes it. -/
structure TextMessageRecord where
  userId : Nat
  username : String
  messageId : Nat
  timestamp : Nat
  chatId : Int
deriving DecidableEq

/-- The four persisted collections. -/
structure DbState where
  media : List MediaRecord
  userStats : List UserStats
  duplicates : List DuplicateEvent
  textMessages : List TextMessageRecord
deriving DecidableEq

/-- From `bot.js` `trackDuplicate` (lines 211-230): bump the offender's
duplicate count and append a duplicate-tracking document. -/
def trackDuplicate (st : DbState) (uid : Nat) (uname : String) (now : Nat) : DbState :=
  { st with
      userStats := trackDuplicateStats st.userStats uid uname now,
      duplicates := st.duplicates ++ [{ userId := uid, username := uname, timestamp := now }] }

/-- Inbound message content; perceptual-library outcomes ride along with the
media payloads as the external input they are. -/
inductive MsgContent
  | photo (buffer : List Nat) (po : PerceptualOutcome)
  | video (buffer : List Nat)
  | document (mimeType : List Char) (buffer : List Nat) (po : PerceptualOutcome)
  | text (body : List Char)
  | other
deriving DecidableEq

/-- An inbound Telegram message, reduced to the fields the handler reads. -/
structure Msg where
  chatId : Int
  messageId : Nat
  userId : Nat
  username : String
  content : MsgContent
deriving DecidableEq

/-- `msg.text && msg.text.startsWith('/')`. -/
def isCommandMsg : MsgContent → Bool
  | MsgContent.text (c :: _) => c == '/'
  | _ => false

/-- `msg.photo || msg.video || msg.document`. -/
def isMediaContent : MsgContent → Bool
  | MsgContent.photo _ _ => true
  | MsgContent.video _ => true
  | MsgContent.document _ _ _ => true
  | _ => false

/-- Media-kind classification of the handler (`bot.js` lines 348-361): photos
and videos directly, documents only when the mime type starts with `image/`;
any other document leaves `mediaFileId` undefined and the event untouched. -/
def mediaKindOf : MsgContent → Option (MediaType × List Nat × PerceptualOutcome)
  | MsgContent.photo buf po => some (MediaType.photo, buf, po)
  | MsgContent.video buf => some (MediaType.video, buf, PerceptualOutcome.err)
  | MsgContent.document mime buf po =>
    if List.isPrefixOf ("image/".toList) mime then some (MediaType.document, buf, po)
    else none
  | _ => none

/-- The structured payload of the duplicate notification sent by the handler
(`bot.js` lines 388-392). -/
structure DuplicateNotice where
  mediaType : MediaType
  origUserId : Nat
  origUsername : String
  origTimestamp : Nat
deriving DecidableEq

/-- The new `media` document inserted for an accepted post
(`bot.js` lines 398-406). -/
def newMediaRecord (msg : Msg) (mt : MediaType) (h : Hash) (now : Nat) : MediaRecord :=
  { hash := h, originalMessageId := msg.messageId, userId := msg.userId,
    username := msg.username, mediaType := mt, timestamp := now, chatId := msg.chatId }

/-- The `bot.on('message')` handler of `bot.js` (lines 302-419): non-group
non-command messages are dropped; commands are read-only; media is hashed,
checked against the store and either recorded as a duplicate or inserted and
counted; non-command text updates the user statistics. -/
def processMessage (st : DbState) (msg : Msg) (isGrp : Bool) (now : Nat) :
    DbState × Option DuplicateNotice :=
  if isGrp = false ∧ isCommandMsg msg.content = false then (st, none)
  else if isCommandMsg msg.content = true then (st, none)
  else if isMediaContent msg.content = true then
    match mediaKindOf msg.content with
    | none => (st, none)
    | some (mt, buf, po) =>
      match findSimilarMedia st.media (hashMedia buf mt po) mt defaultSimilarityThreshold with
      | some existing =>
        (trackDuplicate st msg.userId msg.username now,
         some { mediaType := mt, origUserId := existing.userId,
                origUsername := existing.username, origTimestamp := existing.timestamp })
      | none =>
        ({ st with
            media := st.media ++ [newMediaRecord msg mt (hashMedia buf mt po) now],
            userStats := updateUserStatistics st.userStats msg.userId msg.username mt now },
         none)
  else
    match msg.content with
    | MsgContent.text _ =>
      ({ st with
          userStats := updateUserStatistics st.userStats msg.userId msg.username
            MediaType.text now }, none)
    | _ => (st, none)

/-- Read a numeric field of a user's statistics document; an absent document
reads as 0 (MongoDB `$inc` semantics on a missing field). -/
def statValue (g : UserStats → Nat) (stats : List UserStats) (uid : Nat) : Nat :=
  match stats.find? (fun u => u.userId == uid) with
  | some u => g u
  | none => 0

/-- The user's `totalMessages` counter. -/
def totalMessagesOf (stats : List UserStats) (uid : Nat) : Nat :=
  statValue (fun u => u.totalMessages) stats uid

/-- The user's `duplicatesPosted` counter. -/
def duplicatesPostedOf (stats : List UserStats) (uid : Nat) : Nat :=
  statValue (fun u => u.duplicatesPosted) stats uid

/-- The per-kind counter selected by `mediaType + "Count"`. -/
def kindCount (mt : MediaType) (u : UserStats) : Nat :=
  match mt with
  | MediaType.photo => u.photoCount
  | MediaType.video => u.videoCount
  | MediaType.document => u.documentCount
  | MediaType.text => u.textCount

/-- The user's per-kind counter. -/
def kindCountOf (mt : MediaType) (stats : List UserStats) (uid : Nat) : Nat :=
  statValue (kindCount mt) stats uid

theorem find?_updateFirst_self (stats : List UserStats) (uid : Nat)
    (f : UserStats → UserStats) (hf : ∀ v, (f v).userId = v.userId) :
    (updateFirst stats uid f).find? (fun u => u.userId == uid) =
      Option.map f (stats.find? (fun u => u.userId == uid)) := by
  induction stats with
  | nil => rfl
  | cons u rest ih =>
    by_cases hu : (u.userId == uid) = true
    · have h1 : updateFirst (u :: rest) uid f = f u :: rest := by
        simp [updateFirst, hu]
      have hpf : ((f u).userId == uid) = true := by rw [hf u]; exact hu
      rw [h1]
      simp [List.find?, hpf, hu]
    · have hu0 : (u.userId == uid) = false := by simpa using hu
      have h1 : updateFirst (u :: rest) uid f = u :: updateFirst rest uid f := by
        simp [updateFirst, hu0]
      rw [h1]
      simp [List.find?, hu0, ih]

theorem find?_updateFirst_ne (stats : List UserStats) (uid uid' : Nat)
    (f : UserStats → UserStats) (hf : ∀ v, (f v).userId = v.userId)
    (hne : uid' ≠ uid) :
    (updateFirst stats uid f).find? (fun u => u.userId == uid') =
      stats.find? (fun u => u.userId == uid') := by
  induction stats with
  | nil => rfl
  | cons u rest ih =>
    by_cases hu : (u.userId == uid) = true
    · have h1 : updateFirst (u :: rest) uid f = f u :: rest := by
        simp [updateFirst, hu]
      have huid : u.userId = uid := by simpa using hu
      have hu' : (u.userId == uid') = false := by
        simp [huid]
        intro hc
        exact hne hc.symm
      have hpf : ((f u).userId == uid') = false := by rw [hf u]; exact hu'
      rw [h1]
      simp [List.find?, hpf, hu']
    · have hu0 : (u.userId == uid) = false := by simpa using hu
      have h1 : updateFirst (u :: rest) uid f = u :: updateFirst rest uid f := by
        simp [updateFirst, hu0]
      by_cases hu' : (u.userId == uid') = true
      · rw [h1]
        simp [List.find?, hu']
      · have hu'0 : (u.userId == uid') = false := by simpa using hu'
        rw [h1]
        simp [List.find?, hu'0, ih]

theorem statValue_updateFirst (g : UserStats → Nat) (stats : List UserStats)
    (uid uid' : Nat) (f : UserStats → UserStats)
    (hf : ∀ v, (f v).userId = v.userId) :
    statValue g (updateFirst stats uid f) uid' =
      (if uid' = uid then
        statValue (fun u => g (f u)) stats uid
       else statValue g stats uid') := by
  by_cases h : uid' = uid
  · subst h
    rw [if_pos rfl]
    unfold statValue
    rw [find?_updateFirst_self stats uid' f hf]
    cases stats.find? (fun u => u.userId == uid') <;> rfl
  · rw [if_neg h]
    unfold statValue
    rw [find?_updateFirst_ne stats uid uid' f hf h]

theorem statValue_append_fresh (g : UserStats → Nat) (stats : List UserStats)
    (uid' : Nat) (fresh : UserStats)
    (hnone : stats.find? (fun u => u.userId == uid') = none) :
    statValue g (stats ++ [fresh]) uid' =
      (if (fresh.userId == uid') = true then g fresh else 0) := by
  unfold statValue
  rw [List.find?_append, hnone]
  by_cases hp : (fresh.userId == uid') = true
  · rw [if_pos hp]
    simp [List.find?, hp]
  · have hp0 : (fresh.userId == uid') = false := by simpa using hp
    rw [if_neg hp]
    simp [List.find?, hp0]

theorem statValue_append_found (g : UserStats → Nat) (stats : List UserStats)
    (uid' : Nat) (fresh : UserStats) {u : UserStats}
    (hsome : stats.find? (fun u => u.userId == uid') = some u) :
    statValue g (stats ++ [fresh]) uid' = statValue g stats uid' := by
  unfold statValue
  rw [List.find?_append, hsome]
  rfl

theorem statValue_updateFirst_found (g : UserStats → Nat) {stats : List UserStats}
    {uid : Nat} {u : UserStats} (uid' : Nat) (f : UserStats → UserStats)
    (hf : ∀ v, (f v).userId = v.userId)
    (hfind : stats.find? (fun w => w.userId == uid) = some u) :
    statValue g (updateFirst stats uid f) uid' =
      if uid' = uid then g (f u) else statValue g stats uid' := by
  rw [statValue_updateFirst g stats uid uid' f hf]
  by_cases h : uid' = uid
  · subst h
    rw [if_pos rfl, if_pos rfl]
    unfold statValue
    rw [hfind]
  · rw [if_neg h, if_neg h]

theorem statValue_insert_fresh (g : UserStats → Nat) {stats : List UserStats}
    {uid : Nat} (uid' : Nat) (fresh : UserStats)
    (hfind : stats.find? (fun w => w.userId == uid) = none)
    (hfreshId : fresh.userId = uid) :
    statValue g (stats ++ [fresh]) uid' =
      if uid' = uid then g fresh else statValue g stats uid' := by
  by_cases h : uid' = uid
  · subst h
    rw [if_pos rfl, statValue_append_fresh g stats uid' fresh hfind,
      if_pos (by simp [hfreshId])]
  · rw [if_neg h]
    cases hfind' : stats.find? (fun w => w.userId == uid') with
    | some v => exact statValue_append_found g stats uid' fresh hfind'
    | none =>
      rw [statValue_append_fresh g stats uid' fresh hfind']
      rw [if_neg (by
        simp [hfreshId]
        intro hc
        exact h hc.symm)]
      unfold statValue
      rw [hfind']

theorem totalMessagesOf_updateUserStatistics (stats : List UserStats)
    (uid : Nat) (uname : String) (mt : MediaType) (now : Nat) (uid' : Nat) :
    totalMessagesOf (updateUserStatistics stats uid uname mt now) uid' =
      totalMessagesOf stats uid' + (if uid' = uid then 1 else 0) := by
  unfold totalMessagesOf updateUserStatistics
  cases hfind : stats.find? (fun u => u.userId == uid) with
  | some u =>
    simp only [hfind]
    rw [statValue_updateFirst_found _ uid' _ (by intro v; cases mt <;> rfl) hfind]
    by_cases h : uid' = uid
    · subst h
      simp [statValue, hfind]
    · simp [h]
  | none =>
    simp only [hfind]
    rw [statValue_insert_fresh _ uid' _ hfind rfl]
    by_cases h : uid' = uid
    · subst h
      simp [statValue, hfind, freshUserStats]
    · simp [h]

theorem duplicatesPostedOf_updateUserStatistics (stats : List UserStats)
    (uid : Nat) (uname : String) (mt : MediaType) (now : Nat) (uid' : Nat) :
    duplicatesPostedOf (updateUserStatistics stats uid uname mt now) uid' =
      duplicatesPostedOf stats uid' := by
  unfold duplicatesPostedOf updateUserStatistics
  cases hfind : stats.find? (fun u => u.userId == uid) with
  | some u =>
    simp only [hfind]
    rw [statValue_updateFirst_found _ uid' _ (by intro v; cases mt <;> rfl) hfind]
    by_cases h : uid' = uid
    · subst h
      cases mt <;> simp [statValue, hfind, kindCountInc]
    · simp [h]
  | none =>
    simp only [hfind]
    rw [statValue_insert_fresh _ uid' _ hfind rfl]
    by_cases h : uid' = uid
    · subst h
      simp [statValue, hfind, freshUserStats]
    · simp [h]

theorem kindCountOf_updateUserStatistics (stats : List UserStats)
    (uid : Nat) (uname : String) (mt : MediaType) (now : Nat) (uid' : Nat)
    (mt' : MediaType) :
    kindCountOf mt' (updateUserStatistics stats uid uname mt now) uid' =
      kindCountOf mt' stats uid' +
        (if uid' = uid ∧ mt' = mt then 1 else 0) := by
  unfold kindCountOf updateUserStatistics
  cases hfind : stats.find? (fun u => u.userId == uid) with
  | some u =>
    simp only [hfind]
    rw [statValue_updateFirst_found _ uid' _ (by intro v; cases mt <;> rfl) hfind]
    by_cases h : uid' = uid
    · subst h
      cases mt <;> cases mt' <;>
        simp [statValue, hfind, kindCount, kindCountInc]
    · simp [h]
  | none =>
    simp only [hfind]
    rw [statValue_insert_fresh _ uid' _ hfind rfl]
    by_cases h : uid' = uid
    · subst h
      cases mt <;> cases mt' <;>
        simp [statValue, hfind, kindCount, freshUserStats]
    · simp [h]

theorem duplicatesPostedOf_trackDuplicateStats (stats : List UserStats)
    (uid : Nat) (uname : String) (now : Nat) (uid' : Nat) :
    duplicatesPostedOf (trackDuplicateStats stats uid uname now) uid' =
      duplicatesPostedOf stats uid' + (if uid' = uid then 1 else 0) := by
  unfold duplicatesPostedOf trackDuplicateStats
  cases hfind : stats.find? (fun u => u.userId == uid) with
  | some u =>
    simp only [hfind]
    rw [statValue_updateFirst_found _ uid' _ (by intro v; rfl) hfind]
    by_cases h : uid' = uid
    · subst h
      simp [statValue, hfind]
    · simp [h]
  | none =>
    simp only [hfind]
    rw [statValue_insert_fresh _ uid' _ hfind rfl]
    by_cases h : uid' = uid
    · subst h
      simp [statValue, hfind, dupFreshUserStats]
    · simp [h]

theorem totalMessagesOf_trackDuplicateStats (stats : List UserStats)
    (uid : Nat) (uname : String) (now : Nat) (uid' : Nat) :
    totalMessagesOf (trackDuplicateStats stats uid uname now) uid' =
      totalMessagesOf stats uid' := by
  unfold totalMessagesOf trackDuplicateStats
  cases hfind : stats.find? (fun u => u.userId == uid) with
  | some u =>
    simp only [hfind]
    rw [statValue_updateFirst_found _ uid' _ (by intro v; rfl) hfind]
    by_cases h : uid' = uid
    · subst h
      simp [statValue, hfind]
    · simp [h]
  | none =>
    simp only [hfind]
    rw [statValue_insert_fresh _ uid' _ hfind rfl]
    by_cases h : uid' = uid
    · subst h
      simp [statValue, hfind, dupFreshUserStats]
    · simp [h]

theorem kindCountOf_trackDuplicateStats (stats : List UserStats)
    (uid : Nat) (uname : String) (now : Nat) (uid' : Nat) (mt' : MediaType) :
    kindCountOf mt' (trackDuplicateStats stats uid uname now) uid' =
      kindCountOf mt' stats uid' := by
  unfold kindCountOf trackDuplicateStats
  cases hfind : stats.find? (fun u => u.userId == uid) with
  | some u =>
    simp only [hfind]
    rw [statValue_updateFirst_found _ uid' _ (by intro v; rfl) hfind]
    by_cases h : uid' = uid
    · subst h
      cases mt' <;> simp [statValue, hfind, kindCount]
    · simp [h]
  | none =>
    simp only [hfind]
    rw [statValue_insert_fresh _ uid' _ hfind rfl]
    by_cases h : uid' = uid
    · subst h
      cases mt' <;> simp [statValue, hfind, kindCount, dupFreshUserStats]
    · simp [h]

theorem mediaKindOf_some_flags {c : MsgContent}
    {x : MediaType × List Nat × PerceptualOutcome}
    (h : mediaKindOf c = some x) : isCommandMsg c = false ∧ isMediaContent c = true := by
  cases c with
  | photo buf po => exact ⟨rfl, rfl⟩
  | video buf => exact ⟨rfl, rfl⟩
  | document mime buf po => exact ⟨rfl, rfl⟩
  | text body => simp [mediaKindOf] at h
  | other => simp [mediaKindOf] at h

theorem processMessage_media (st : DbState) (msg : Msg) (now : Nat)
    {mt : MediaType} {buf : List Nat} {po : PerceptualOutcome}
    (hkind : mediaKindOf msg.content = some (mt, buf, po)) :
    processMessage st msg true now =
      match findSimilarMedia st.media (hashMedia buf mt po) mt
          defaultSimilarityThreshold with
      | some existing =>
        (trackDuplicate st msg.userId msg.username now,
         some { mediaType := mt, origUserId := existing.userId,
                origUsername := existing.username, origTimestamp := existing.timestamp })
      | none =>
        ({ st with
            media := st.media ++ [newMediaRecord msg mt (hashMedia buf mt po) now],
            userStats := updateUserStatistics st.userStats msg.userId msg.username mt now },
         none) := by
  have hflags := mediaKindOf_some_flags hkind
  unfold processMessage
  rw [if_neg (by simp), if_neg (by simp [hflags.1]), if_pos hflags.2, hkind]

/-- C3: on an accepted (no-match) media post the handler inserts exactly one
new media record and leaves the duplicate log untouched; on a matched
(duplicate) post it inserts no media record, appends exactly one duplicate
event, bumps the offender's `duplicatesPosted` by one and leaves the offender's
`totalMessages` unchanged. -/
theorem C3_accepted_inserts_once_duplicates_never
    (st : DbState) (msg : Msg) (now : Nat)
    (mt : MediaType) (buf : List Nat) (po : PerceptualOutcome)
    (hkind : mediaKindOf msg.content = some (mt, buf, po)) :
    (findSimilarMedia st.media (hashMedia buf mt po) mt defaultSimilarityThreshold =
        none →
      (processMessage st msg true now).1.media =
        st.media ++ [newMediaRecord msg mt (hashMedia buf mt po) now] ∧
      (processMessage st msg true now).1.duplicates = st.duplicates ∧
      (processMessage st msg true now).1.userStats =
        updateUserStatistics st.userStats msg.userId msg.username mt now) ∧
    (∀ r, findSimilarMedia st.media (hashMedia buf mt po) mt
        defaultSimilarityThreshold = some r →
      (processMessage st msg true now).1.media = st.media ∧
      (processMessage st msg true now).1.duplicates =
        st.duplicates ++ [DuplicateEvent.mk msg.userId msg.username now] ∧
      duplicatesPostedOf (processMessage st msg true now).1.userStats msg.userId =
        duplicatesPostedOf st.userStats msg.userId + 1 ∧
      totalMessagesOf (processMessage st msg true now).1.userStats msg.userId =
        totalMessagesOf st.userStats msg.userId) := by
  rw [processMessage_media st msg now hkind]
  constructor
  · intro hnone
    rw [hnone]
    exact ⟨rfl, rfl, rfl⟩
  · intro r hr
    rw [hr]
    refine ⟨rfl, rfl, ?_, ?_⟩
    · show duplicatesPostedOf
        (trackDuplicateStats st.userStats msg.userId msg.username now) msg.userId = _
      rw [duplicatesPostedOf_trackDuplicateStats]
      simp
    · show totalMessagesOf
        (trackDuplicateStats st.userStats msg.userId msg.username now) msg.userId = _
      rw [totalMessagesOf_trackDuplicateStats]

/-- C3 witness: a fresh photo on an empty store is accepted and inserts exactly
one media record. -/
theorem C3_witness :
    mediaKindOf (MsgContent.photo [1, 2] (PerceptualOutcome.ok ['a', 'b'])) =
      some (MediaType.photo, [1, 2], PerceptualOutcome.ok ['a', 'b']) ∧
    findSimilarMedia (DbState.mk [] [] [] []).media
      (hashMedia [1, 2] MediaType.photo (PerceptualOutcome.ok ['a', 'b']))
      MediaType.photo defaultSimilarityThreshold = none ∧
    (processMessage (DbState.mk [] [] [] [])
        (Msg.mk 1 10 7 "alice" (MsgContent.photo [1, 2] (PerceptualOutcome.ok ['a', 'b'])))
        true 100).1.media =
      (DbState.mk [] [] [] []).media ++
        [newMediaRecord
          (Msg.mk 1 10 7 "alice" (MsgContent.photo [1, 2] (PerceptualOutcome.ok ['a', 'b'])))
          MediaType.photo
          (hashMedia [1, 2] MediaType.photo (PerceptualOutcome.ok ['a', 'b'])) 100] := by
  refine ⟨by decide, by decide, ?_⟩
  exact ((C3_accepted_inserts_once_duplicates_never (DbState.mk [] [] [] [])
    (Msg.mk 1 10 7 "alice" (MsgContent.photo [1, 2] (PerceptualOutcome.ok ['a', 'b'])))
    100 MediaType.photo [1, 2] (PerceptualOutcome.ok ['a', 'b']) rfl).1 (by decide)).1

/-- The statistics-relevant events of the handler: an accepted (non-duplicate)
media or text event drives `updateUserStatistics`, a duplicate event drives
`trackDuplicate`'s statistics upsert. -/
inductive StatEvent
  | accepted (uid : Nat) (uname : String) (mt : MediaType) (now : Nat)
  | dup (uid : Nat) (uname : String) (now : Nat)

/-- Apply one event to the `userStats` collection, exactly as the handler
does. -/
def applyStatEvent (stats : List UserStats) : StatEvent → List UserStats
  | StatEvent.accepted uid uname mt now => updateUserStatistics stats uid uname mt now
  | StatEvent.dup uid uname now => trackDuplicateStats stats uid uname now

/-- Replay a sequence of events against the `userStats` collection. -/
def runStatEvents (stats : List UserStats) (evs : List StatEvent) : List UserStats :=
  evs.foldl applyStatEvent stats

/-- An accepted text event of the given user. -/
def isAcceptedTextBy (uid : Nat) : StatEvent → Bool
  | StatEvent.accepted u _ mt _ => decide (u = uid ∧ mt = MediaType.text)
  | _ => false

/-- An accepted media (non-text) event of the given user. -/
def isAcceptedMediaBy (uid : Nat) : StatEvent → Bool
  | StatEvent.accepted u _ mt _ => decide (u = uid ∧ mt ≠ MediaType.text)
  | _ => false

/-- An accepted event of the given user and kind. -/
def isAcceptedKindBy (uid : Nat) (mt : MediaType) : StatEvent → Bool
  | StatEvent.accepted u _ mtp _ => decide (u = uid ∧ mtp = mt)
  | _ => false

/-- A duplicate event of the given user. -/
def isDupBy (uid : Nat) : StatEvent → Bool
  | StatEvent.dup u _ _ => decide (u = uid)
  | _ => false

theorem runStatEvents_totalMessages (evs : List StatEvent) :
    ∀ (stats : List UserStats) (uid : Nat),
    totalMessagesOf (runStatEvents stats evs) uid =
      totalMessagesOf stats uid + evs.countP (isAcceptedTextBy uid) +
        evs.countP (isAcceptedMediaBy uid) := by
  induction evs with
  | nil => intro stats uid; simp [runStatEvents]
  | cons e rest ih =>
    intro stats uid
    have hrun : runStatEvents stats (e :: rest) =
        runStatEvents (applyStatEvent stats e) rest := rfl
    rw [hrun, ih]
    cases e with
    | accepted u un mt n =>
      have happ : applyStatEvent stats (StatEvent.accepted u un mt n) =
          updateUserStatistics stats u un mt n := rfl
      rw [happ, totalMessagesOf_updateUserStatistics]
      simp only [List.countP_cons, isAcceptedTextBy, isAcceptedMediaBy]
      by_cases hu : u = uid
      · subst hu
        by_cases hmt : mt = MediaType.text
        · simp [hmt]
          omega
        · simp [hmt]
          omega
      · simp [hu, Ne.symm hu]
    | dup u un n =>
      have happ : applyStatEvent stats (StatEvent.dup u un n) =
          trackDuplicateStats stats u un n := rfl
      rw [happ, totalMessagesOf_trackDuplicateStats]
      simp [List.countP_cons, isAcceptedTextBy, isAcceptedMediaBy]

theorem runStatEvents_duplicatesPosted (evs : List StatEvent) :
    ∀ (stats : List UserStats) (uid : Nat),
    duplicatesPostedOf (runStatEvents stats evs) uid =
      duplicatesPostedOf stats uid + evs.countP (isDupBy uid) := by
  induction evs with
  | nil => intro stats uid; simp [runStatEvents]
  | cons e rest ih =>
    intro stats uid
    have hrun : runStatEvents stats (e :: rest) =
        runStatEvents (applyStatEvent stats e) rest := rfl
    rw [hrun, ih]
    cases e with
    | accepted u un mt n =>
      have happ : applyStatEvent stats (StatEvent.accepted u un mt n) =
          updateUserStatistics stats u un mt n := rfl
      rw [happ, duplicatesPostedOf_updateUserStatistics]
      simp [List.countP_cons, isDupBy]
    | dup u un n =>
      have happ : applyStatEvent stats (StatEvent.dup u un n) =
          trackDuplicateStats stats u un n := rfl
      rw [happ, duplicatesPostedOf_trackDuplicateStats]
      simp only [List.countP_cons, isDupBy]
      by_cases hu : u = uid
      · subst hu
        simp
        omega
      · simp [hu, Ne.symm hu]

theorem runStatEvents_kindCount (evs : List StatEvent) :
    ∀ (stats : List UserStats) (uid : Nat) (mt : MediaType),
    kindCountOf mt (runStatEvents stats evs) uid =
      kindCountOf mt stats uid + evs.countP (isAcceptedKindBy uid mt) := by
  induction evs with
  | nil => intro stats uid mt; simp [runStatEvents]
  | cons e rest ih =>
    intro stats uid mt
    have hrun : runStatEvents stats (e :: rest) =
        runStatEvents (applyStatEvent stats e) rest := rfl
    rw [hrun, ih]
    cases e with
    | accepted u un mtp n =>
      have happ : applyStatEvent stats (StatEvent.accepted u un mtp n) =
          updateUserStatistics stats u un mtp n := rfl
      rw [happ, kindCountOf_updateUserStatistics]
      simp only [List.countP_cons, isAcceptedKindBy]
      by_cases hu : u = uid
      · subst hu
        by_cases hmt : mtp = mt
        · subst hmt
          simp
          omega
        · have hmt2 : ¬mt = mtp := fun hc => hmt hc.symm
          simp [hmt, hmt2]
      · simp [hu]
        exact fun hc => absurd hc.symm hu
    | dup u un n =>
      have happ : applyStatEvent stats (StatEvent.dup u un n) =
          trackDuplicateStats stats u un n := rfl
      rw [happ, kindCountOf_trackDuplicateStats]
      simp [List.countP_cons, isAcceptedKindBy]

/-- C6: replaying any event sequence from an empty statistics store, a user's
`totalMessages` equals the number of accepted text events plus the number of
accepted media events of that user, `duplicatesPosted` equals the number of the
user's duplicate events, each per-kind counter counts the accepted events of
that kind, and a duplicate event never changes `totalMessages` or any per-kind
counter. -/
theorem C6_user_stats_consistency (evs : List StatEvent) (uid : Nat) :
    totalMessagesOf (runStatEvents [] evs) uid =
      evs.countP (isAcceptedTextBy uid) + evs.countP (isAcceptedMediaBy uid) ∧
    duplicatesPostedOf (runStatEvents [] evs) uid = evs.countP (isDupBy uid) ∧
    (∀ mt, kindCountOf mt (runStatEvents [] evs) uid =
      evs.countP (isAcceptedKindBy uid mt)) ∧
    (∀ (stats : List UserStats) (uid2 : Nat) (uname : String) (now : Nat),
      totalMessagesOf (trackDuplicateStats stats uid2 uname now) uid =
        totalMessagesOf stats uid ∧
      ∀ mt, kindCountOf mt (trackDuplicateStats stats uid2 uname now) uid =
        kindCountOf mt stats uid) := by
  refine ⟨?_, ?_, ?_, ?_⟩
  · have := runStatEvents_totalMessages evs [] uid
    simpa [totalMessagesOf, statValue] using this
  · have := runStatEvents_duplicatesPosted evs [] uid
    simpa [duplicatesPostedOf, statValue] using this
  · intro mt
    have := runStatEvents_kindCount evs [] uid mt
    simpa [kindCountOf, statValue] using this
  · intro stats uid2 uname now
    exact ⟨totalMessagesOf_trackDuplicateStats stats uid2 uname now uid,
      fun mt => kindCountOf_trackDuplicateStats stats uid2 uname now uid mt⟩

/-- C4 counterexample: a photo whose perceptual hashing fails falls back to the
content digest, but that digest is then compared under the perceptual
threshold-5 scan, not by exact equality.  Here the first photo (buffer `[5]`)
was stored with perceptual hash `xx|x`; the second photo (buffer `[2, 0]`,
hashing fails) gets digest `xx||`, at distance 1, and is reported as a
duplicate although the contents are not byte-identical. -/
theorem C4_counterexample :
    (processMessage
        (processMessage (DbState.mk [] [] [] [])
          (Msg.mk 1 11 7 "alice"
            (MsgContent.photo [5] (PerceptualOutcome.ok ['x', 'x', '|', 'x'])))
          true 10).1
        (Msg.mk 1 12 8 "bob" (MsgContent.photo [2, 0] PerceptualOutcome.err))
        true 20).2 =
      some (DuplicateNotice.mk MediaType.photo 7 "alice" 10) ∧
    hashMedia [2, 0] MediaType.photo PerceptualOutcome.err = cryptoHash [2, 0] ∧
    ([5] : List Nat) ≠ [2, 0] := by
  refine ⟨?_, rfl, by decide⟩
  decide

/-- C4 amended: `hashMedia` always returns a fingerprint — the crypto digest of
the raw bytes whenever the kind is not an image or perceptual hashing failed;
for non-image kinds a match is an exact fingerprint-equality lookup, so the
matched record carries the identical digest, and equal digests force
byte-identical content.  (For image kinds the fallback digest is instead
compared under the perceptual threshold scan, where a match need not be
byte-identical — see the counterexample.) -/
theorem C4_hash_total_digest_fallback :
    (∀ (buf : List Nat) (mt : MediaType) (po : PerceptualOutcome),
      isPerceptualType mt = false → hashMedia buf mt po = cryptoHash buf) ∧
    (∀ buf : List Nat,
      hashMedia buf MediaType.photo PerceptualOutcome.err = cryptoHash buf) ∧
    (∀ (store : List MediaRecord) (buf : List Nat) (mt : MediaType) (t : Nat)
       (r : MediaRecord),
      isPerceptualType mt = false →
      findSimilarMedia store (cryptoHash buf) mt t = some r →
      r.hash = cryptoHash buf) ∧
    (∀ buf1 buf2 : List Nat, cryptoHash buf1 = cryptoHash buf2 → buf1 = buf2) := by
  refine ⟨?_, ?_, ?_, ?_⟩
  · intro buf mt po hmt
    simp [hashMedia, hmt]
  · intro buf
    rfl
  · intro store buf mt t r hmt hr
    unfold findSimilarMedia at hr
    rw [if_pos hmt] at hr
    have := List.find?_some hr
    simpa using this
  · intro buf1 buf2 h
    exact cryptoHash_inj h

/-- C4 witness: the amended theorem applied at a concrete video buffer and at
concrete digests. -/
theorem C4_witness :
    hashMedia [3] MediaType.video PerceptualOutcome.err = cryptoHash [3] ∧
    ([3] : List Nat) = [3] :=
  ⟨C4_hash_total_digest_fallback.1 [3] MediaType.video PerceptualOutcome.err (by decide),
   C4_hash_total_digest_fallback.2.2.2 [3] [3] rfl⟩

/-- C5 counterexample: a PDF document is not processed at all — the handler
assigns no media kind to a document whose mime type does not start with
`image/`, so posting the identical PDF twice produces no duplicate
notification, no duplicate event and no stored record; the whole state is
untouched. -/
theorem C5_counterexample :
    (processMessage
        (processMessage (DbState.mk [] [] [] [])
          (Msg.mk 1 11 7 "alice"
            (MsgContent.document ("application/pdf".toList) [7, 7] PerceptualOutcome.err))
          true 10).1
        (Msg.mk 1 12 8 "bob"
          (MsgContent.document ("application/pdf".toList) [7, 7] PerceptualOutcome.err))
        true 20) =
      (DbState.mk [] [] [] [], none) := by
  decide

/-- C5 amended: any document whose mime type does not start with `image/` is
ignored entirely (state and output unchanged); the non-image media kind with
exact-duplicate detection is `video`: a byte-identical repost of a video is
reported as a duplicate of the first post, appends one duplicate event and
creates no new media record. -/
theorem C5_nonimage_document_ignored_video_exact
    (st0 : DbState) (h0 : st0.media = []) :
    (∀ (st : DbState) (cid : Int) (mid uid : Nat) (uname : String)
       (mime : List Char) (buf : List Nat) (po : PerceptualOutcome)
       (grp : Bool) (now : Nat),
      List.isPrefixOf ("image/".toList) mime = false →
      processMessage st (Msg.mk cid mid uid uname (MsgContent.document mime buf po))
        grp now = (st, none)) ∧
    (∀ (buf : List Nat) (cid1 cid2 : Int) (mid1 mid2 uid1 uid2 : Nat)
       (un1 un2 : String) (now1 now2 : Nat),
      (processMessage
          (processMessage st0 (Msg.mk cid1 mid1 uid1 un1 (MsgContent.video buf))
            true now1).1
          (Msg.mk cid2 mid2 uid2 un2 (MsgContent.video buf)) true now2).2 =
        some (DuplicateNotice.mk MediaType.video uid1 un1 now1) ∧
      (processMessage
          (processMessage st0 (Msg.mk cid1 mid1 uid1 un1 (MsgContent.video buf))
            true now1).1
          (Msg.mk cid2 mid2 uid2 un2 (MsgContent.video buf)) true now2).1.media =
        (processMessage st0 (Msg.mk cid1 mid1 uid1 un1 (MsgContent.video buf))
          true now1).1.media ∧
      (processMessage
          (processMessage st0 (Msg.mk cid1 mid1 uid1 un1 (MsgContent.video buf))
            true now1).1
          (Msg.mk cid2 mid2 uid2 un2 (MsgContent.video buf)) true now2).1.duplicates =
        (processMessage st0 (Msg.mk cid1 mid1 uid1 un1 (MsgContent.video buf))
          true now1).1.duplicates ++ [DuplicateEvent.mk uid2 un2 now2]) := by
  constructor
  · intro st cid mid uid uname mime buf po grp now hmime
    unfold processMessage
    by_cases hgrp : grp = false
    · rw [if_pos ⟨hgrp, rfl⟩]
    · rw [if_neg (by intro hc; exact hgrp hc.1), if_neg (by simp [isCommandMsg])]
      have hkind : mediaKindOf (MsgContent.document mime buf po) = none := by
        show (if ("image/".toList).isPrefixOf mime = true then
          some (MediaType.document, buf, po) else none) = none
        rw [if_neg (by
          intro hc
          rw [hmime] at hc
          exact Bool.false_ne_true hc)]
      simp [isMediaContent, hkind]
  · intro buf cid1 cid2 mid1 mid2 uid1 uid2 un1 un2 now1 now2
    have hk1 : mediaKindOf (MsgContent.video buf) =
        some (MediaType.video, buf, PerceptualOutcome.err) := rfl
    have hfind1 : findSimilarMedia st0.media
        (hashMedia buf MediaType.video PerceptualOutcome.err) MediaType.video
        defaultSimilarityThreshold = none := by
      rw [h0]
      rfl
    have hstep1 := processMessage_media st0
      (Msg.mk cid1 mid1 uid1 un1 (MsgContent.video buf)) now1 hk1
    rw [hfind1] at hstep1
    have hmedia1 : (processMessage st0
        (Msg.mk cid1 mid1 uid1 un1 (MsgContent.video buf)) true now1).1.media =
        st0.media ++ [newMediaRecord (Msg.mk cid1 mid1 uid1 un1 (MsgContent.video buf))
          MediaType.video (hashMedia buf MediaType.video PerceptualOutcome.err) now1] := by
      rw [hstep1]
    have hfind2 : findSimilarMedia
        (processMessage st0 (Msg.mk cid1 mid1 uid1 un1 (MsgContent.video buf))
          true now1).1.media
        (hashMedia buf MediaType.video PerceptualOutcome.err) MediaType.video
        defaultSimilarityThreshold =
        some (newMediaRecord (Msg.mk cid1 mid1 uid1 un1 (MsgContent.video buf))
          MediaType.video (hashMedia buf MediaType.video PerceptualOutcome.err) now1) := by
      rw [hmedia1, h0]
      unfold findSimilarMedia
      rw [if_pos (show isPerceptualType MediaType.video = false from rfl)]
      simp [List.find?, newMediaRecord]
    have hstep2 := processMessage_media
      (processMessage st0 (Msg.mk cid1 mid1 uid1 un1 (MsgContent.video buf)) true now1).1
      (Msg.mk cid2 mid2 uid2 un2 (MsgContent.video buf)) now2 hk1
    rw [hfind2] at hstep2
    rw [hstep2]
    exact ⟨rfl, rfl, rfl⟩

/-- C5 witness: the amended theorem applied at a concrete PDF message and at a
concrete twice-posted video buffer. -/
theorem C5_witness :
    (DbState.mk [] [] [] []).media = ([] : List MediaRecord) ∧
    List.isPrefixOf ("image/".toList) ("application/pdf".toList) = false ∧
    processMessage (DbState.mk [] [] [] [])
      (Msg.mk 1 11 7 "alice"
        (MsgContent.document ("application/pdf".toList) [7, 7] PerceptualOutcome.err))
      true 10 = (DbState.mk [] [] [] [], none) ∧
    (processMessage
        (processMessage (DbState.mk [] [] [] [])
          (Msg.mk 1 11 7 "alice" (MsgContent.video [9, 9])) true 10).1
        (Msg.mk 1 12 8 "bob" (MsgContent.video [9, 9])) true 20).2 =
      some (DuplicateNotice.mk MediaType.video 7 "alice" 10) := by
  refine ⟨rfl, by decide, ?_, ?_⟩
  · exact (C5_nonimage_document_ignored_video_exact (DbState.mk [] [] [] []) rfl).1
      (DbState.mk [] [] [] []) 1 11 7 "alice" ("application/pdf".toList) [7, 7]
      PerceptualOutcome.err true 10 (by decide)
  · exact ((C5_nonimage_document_ignored_video_exact (DbState.mk [] [] [] []) rfl).2
      [9, 9] 1 1 11 12 7 8 "alice" "bob" 10 20).1

/-- `user.username || user.userId` as a display string (JavaScript falsiness:
the empty string falls back to the numeric id). -/
def displayName (uname : String) (uid : Nat) : String :=
  if uname = "" then Nat.repr uid else uname

/-- Stable insertion step for a descending sort by a numeric key (models the
stable `Array.prototype.sort` with comparator `b.key - a.key`). -/
def insertDescBy {α : Type} (key : α → Nat) (x : α) : List α → List α
  | [] => [x]
  | y :: ys => if key y ≤ key x then x :: y :: ys else y :: insertDescBy key x ys

/-- Stable descending sort by a numeric key. -/
def sortDescBy {α : Type} (key : α → Nat) : List α → List α
  | [] => []
  | x :: xs => insertDescBy key x (sortDescBy key xs)

/-- The structured content of the weekly statistics message. -/
structure WeeklyReport where
  topContributors : List (String × Nat)
  totalPhotos : Nat
  totalVideos : Nat
  totalDocs : Nat
  totalTexts : Nat
  topOffenders : List (String × Nat)
deriving DecidableEq

/-- From `bot.js` `generateWeeklyStats` (lines 233-277): the report is computed
from the cumulative `userStats` collection — lifetime totals sorted descending,
top five contributors, per-kind sums, and the top three duplicate offenders.
No time filtering is applied. -/
def generateWeeklyStats (stats : List UserStats) : WeeklyReport :=
  let sorted := sortDescBy (fun u => u.totalMessages) stats
  { topContributors := (sorted.take 5).map
      (fun u => (displayName u.username u.userId, u.totalMessages)),
    totalPhotos := sorted.foldl (fun s u => s + u.photoCount) 0,
    totalVideos := sorted.foldl (fun s u => s + u.videoCount) 0,
    totalDocs := sorted.foldl (fun s u => s + u.documentCount) 0,
    totalTexts := sorted.foldl (fun s u => s + u.textCount) 0,
    topOffenders := ((sortDescBy (fun u => u.duplicatesPosted)
        (sorted.filter (fun u => decide (0 < u.duplicatesPosted)))).take 3).map
      (fun u => (displayName u.username u.userId, u.duplicatesPosted)) }

/-- C7 counterexample: `bot.js`'s `generateWeeklyStats` aggregates lifetime
`UserStats`, so an event far outside any one-week window still changes the
report.  With `now = 900000100` (window start `900000100 - 604800000`), a
second accepted text event at ancient time 5 changes the top contributor's
message count from 1 to 2. -/
theorem C7_counterexample :
    generateWeeklyStats
        (updateUserStatistics
          (updateUserStatistics [] 7 "alice" MediaType.text 900000100)
          7 "alice" MediaType.text 5) ≠
      generateWeeklyStats (updateUserStatistics [] 7 "alice" MediaType.text 900000100) := by
  decide

/-- Ordered de-duplicating insert: models the ascending numeric ordering of
JavaScript object keys over user ids. -/
def insertAsc (x : Nat) : List Nat → List Nat
  | [] => [x]
  | y :: ys =>
    if x < y then x :: y :: ys
    else if x = y then y :: ys
    else y :: insertAsc x ys

/-- The ascending duplicate-free id list of a key set (`Object.values`
enumeration order for integer-keyed objects). -/
def sortedIds (l : List Nat) : List Nat := l.foldr insertAsc []

/-- A per-user entry of the windowed weekly aggregation
(`part_001` lines 310-321). -/
structure WindowUserStat where
  userId : Nat
  username : String
  photoCount : Nat
  videoCount : Nat
  documentCount : Nat
  textCount : Nat
  totalMessages : Nat
deriving DecidableEq

/-- The username recorded when a user's aggregation entry is created: from the
user's first in-window media record, else from the first text record. -/
def windowUsername (u : Nat) (media : List MediaRecord)
    (texts : List TextMessageRecord) : String :=
  match media.find? (fun m => m.userId == u) with
  | some m => m.username
  | none =>
    match texts.find? (fun tr => tr.userId == u) with
    | some tr => tr.username
    | none => ""

/-- The aggregated in-window counters of one user (`part_001` lines 306-365). -/
def mkWindowStat (media : List MediaRecord) (texts : List TextMessageRecord)
    (u : Nat) : WindowUserStat :=
  { userId := u,
    username := windowUsername u media texts,
    photoCount := media.countP
      (fun m => m.userId == u && decide (m.mediaType = MediaType.photo)),
    videoCount := media.countP
      (fun m => m.userId == u && decide (m.mediaType = MediaType.video)),
    documentCount := media.countP
      (fun m => m.userId == u && decide (m.mediaType = MediaType.document)),
    textCount := texts.countP (fun tr => tr.userId == u),
    totalMessages := media.countP (fun m => m.userId == u) +
      texts.countP (fun tr => tr.userId == u) }

/-- The username attached to a duplicate offender (from the user's first
in-window duplicate event). -/
def windowDupName (u : Nat) (dups : List DuplicateEvent) : String :=
  match dups.find? (fun d => d.userId == u) with
  | some d => d.username
  | none => ""

/-- The aggregation body of the windowed `generateWeeklyStats`
(`part_001` lines 290-434), applied to already-filtered collections. -/
def buildWindowReport (media : List MediaRecord) (texts : List TextMessageRecord)
    (dups : List DuplicateEvent) : WeeklyReport :=
  let users := (sortedIds (media.map (fun m => m.userId) ++
    texts.map (fun tr => tr.userId))).map (mkWindowStat media texts)
  let sorted := sortDescBy (fun u => u.totalMessages) users
  { topContributors := (sorted.take 5).map
      (fun u => (displayName u.username u.userId, u.totalMessages)),
    totalPhotos := sorted.foldl (fun s u => s + u.photoCount) 0,
    totalVideos := sorted.foldl (fun s u => s + u.videoCount) 0,
    totalDocs := sorted.foldl (fun s u => s + u.documentCount) 0,
    totalTexts := sorted.foldl (fun s u => s + u.textCount) 0,
    topOffenders := ((sortDescBy (fun p : String × Nat => p.2)
        (((sortedIds (dups.map (fun d => d.userId))).map
          (fun u => (displayName (windowDupName u dups) u,
            dups.countP (fun d => d.userId == u)))).filter
          (fun p => decide (0 < p.2)))).take 3) }

/-- The windowed weekly report of the deployment variants (`part_000`,
`part_001`): all three collections are first filtered by
`timestamp >= oneWeekAgo` (the Mongo `$gte` queries). -/
def generateWeeklyStatsWindowed (media : List MediaRecord)
    (texts : List TextMessageRecord) (dups : List DuplicateEvent)
    (oneWeekAgo : Nat) : WeeklyReport :=
  buildWindowReport
    (media.filter (fun m => decide (oneWeekAgo ≤ m.timestamp)))
    (texts.filter (fun tr => decide (oneWeekAgo ≤ tr.timestamp)))
    (dups.filter (fun d => decide (oneWeekAgo ≤ d.timestamp)))

/-- C7 amended: the windowed report of the deployment variants depends only on
records with a timestamp at or after the window start — a media record, text
record or duplicate event strictly before the window, inserted anywhere in its
collection, leaves the report unchanged.  (The base `bot.js` report aggregates
lifetime `UserStats` instead and is affected by out-of-window events; see the
counterexample.) -/
theorem C7_windowed_report_ignores_old_records
    (oneWeekAgo : Nat)
    (m1 m2 : List MediaRecord) (rm : MediaRecord) (hm : rm.timestamp < oneWeekAgo)
    (t1 t2 : List TextMessageRecord) (rt : TextMessageRecord)
    (ht : rt.timestamp < oneWeekAgo)
    (d1 d2 : List DuplicateEvent) (rd : DuplicateEvent) (hd : rd.timestamp < oneWeekAgo)
    (media : List MediaRecord) (texts : List TextMessageRecord)
    (dups : List DuplicateEvent) :
    generateWeeklyStatsWindowed (m1 ++ rm :: m2) texts dups oneWeekAgo =
      generateWeeklyStatsWindowed (m1 ++ m2) texts dups oneWeekAgo ∧
    generateWeeklyStatsWindowed media (t1 ++ rt :: t2) dups oneWeekAgo =
      generateWeeklyStatsWindowed media (t1 ++ t2) dups oneWeekAgo ∧
    generateWeeklyStatsWindowed media texts (d1 ++ rd :: d2) oneWeekAgo =
      generateWeeklyStatsWindowed media texts (d1 ++ d2) oneWeekAgo := by
  have hmf : decide (oneWeekAgo ≤ rm.timestamp) = false := by
    simp
    omega
  have htf : decide (oneWeekAgo ≤ rt.timestamp) = false := by
    simp
    omega
  have hdf : decide (oneWeekAgo ≤ rd.timestamp) = false := by
    simp
    omega
  unfold generateWeeklyStatsWindowed
  refine ⟨?_, ?_, ?_⟩
  · rw [List.filter_append, List.filter_append, List.filter_cons_of_neg (by simp [hmf])]
  · rw [List.filter_append, List.filter_append, List.filter_cons_of_neg (by simp [htf])]
  · rw [List.filter_append, List.filter_append, List.filter_cons_of_neg (by simp [hdf])]

/-- C7 witness: the amended theorem applied at a concrete window and concrete
collections, with concrete out-of-window records. -/
theorem C7_witness :
    (MediaRecord.mk ['a'] 1 7 "alice" MediaType.photo 3 1).timestamp < 1000 ∧
    generateWeeklyStatsWindowed
        ([] ++ MediaRecord.mk ['a'] 1 7 "alice" MediaType.photo 3 1 ::
          [MediaRecord.mk ['b'] 2 8 "bob" MediaType.photo 2000 1])
        [] [] 1000 =
      generateWeeklyStatsWindowed
        ([] ++ [MediaRecord.mk ['b'] 2 8 "bob" MediaType.photo 2000 1]) [] [] 1000 := by
  refine ⟨by decide, ?_⟩
  exact (C7_windowed_report_ignores_old_records 1000
    [] [MediaRecord.mk ['b'] 2 8 "bob" MediaType.photo 2000 1]
    (MediaRecord.mk ['a'] 1 7 "alice" MediaType.photo 3 1) (by decide)
    [] [] (TextMessageRecord.mk 7 "alice" 1 3 1) (by decide)
    [] [] (DuplicateEvent.mk 7 "alice" 3) (by decide)
    [] [] []).1

/-- A media post being processed by one in-flight handler invocation. -/
structure MediaPost where
  mediaType : MediaType
  buffer : List Nat
  po : PerceptualOutcome
  userId : Nat
  username : String
  messageId : Nat
  chatId : Int
  time : Nat
deriving DecidableEq

/-- The media record the handler inserts for an accepted post. -/
def postRecord (p : MediaPost) : MediaRecord :=
  { hash := hashMedia p.buffer p.mediaType p.po, originalMessageId := p.messageId,
    userId := p.userId, username := p.username, mediaType := p.mediaType,
    timestamp := p.time, chatId := p.chatId }

/-- The per-task progress of one handler invocation: before its
`findSimilarMedia` await, between lookup and write, or done.  Each constructor
transition is one atomic database interaction; the `await` points of the
JavaScript handler let other invocations interleave between them. -/
inductive TaskState
  | ready
  | looked (found : Option MediaRecord)
  | finished
deriving DecidableEq

/-- The state change of an accepted post: insert the record and count it. -/
def acceptPost (st : DbState) (p : MediaPost) : DbState :=
  { st with
      media := st.media ++ [postRecord p],
      userStats := updateUserStatistics st.userStats p.userId p.username
        p.mediaType p.time }

/-- One atomic step of a handler invocation, exactly the lookup-then-write
sequence of `bot.js` lines 377-410. -/
def taskStep (st : DbState) (p : MediaPost) : TaskState → DbState × TaskState
  | TaskState.ready =>
    (st, TaskState.looked (findSimilarMedia st.media
      (hashMedia p.buffer p.mediaType p.po) p.mediaType defaultSimilarityThreshold))
  | TaskState.looked (some _) =>
    (trackDuplicate st p.userId p.username p.time, TaskState.finished)
  | TaskState.looked none => (acceptPost st p, TaskState.finished)
  | TaskState.finished => (st, TaskState.finished)

/-- Run two concurrent handler invocations under a schedule (`true` steps task
one, `false` steps task two). -/
def runSchedule (p1 p2 : MediaPost) :
    List Bool → DbState → TaskState → TaskState → DbState × TaskState × TaskState
  | [], st, t1, t2 => (st, t1, t2)
  | b :: rest, st, t1, t2 =>
    if b then
      runSchedule p1 p2 rest (taskStep st p1 t1).1 (taskStep st p1 t1).2 t2
    else
      runSchedule p1 p2 rest (taskStep st p2 t2).1 t1 (taskStep st p2 t2).2

/-- C8: the handler's lookup-then-insert sequence is not atomic.  Two
concurrent posts of the same new image (empty store, identical perceptual
hash) under the interleaving lookup-1, lookup-2, write-1, write-2 both observe
"no match" and both insert: two original records are created and no duplicate
event is recorded — violating the at-most-one-original invariant that the
sequential schedule (second conjunct) does maintain. -/
theorem C8_lookup_insert_race :
    ((runSchedule
        (MediaPost.mk MediaType.photo [1] (PerceptualOutcome.ok ['a', 'b']) 7 "alice" 11 1 10)
        (MediaPost.mk MediaType.photo [1] (PerceptualOutcome.ok ['a', 'b']) 8 "bob" 12 2 20)
        [true, false, true, false] (DbState.mk [] [] [] [])
        TaskState.ready TaskState.ready).1.media.length = 2 ∧
     (runSchedule
        (MediaPost.mk MediaType.photo [1] (PerceptualOutcome.ok ['a', 'b']) 7 "alice" 11 1 10)
        (MediaPost.mk MediaType.photo [1] (PerceptualOutcome.ok ['a', 'b']) 8 "bob" 12 2 20)
        [true, false, true, false] (DbState.mk [] [] [] [])
        TaskState.ready TaskState.ready).1.duplicates.length = 0) ∧
    ((runSchedule
        (MediaPost.mk MediaType.photo [1] (PerceptualOutcome.ok ['a', 'b']) 7 "alice" 11 1 10)
        (MediaPost.mk MediaType.photo [1] (PerceptualOutcome.ok ['a', 'b']) 8 "bob" 12 2 20)
        [true, true, false, false] (DbState.mk [] [] [] [])
        TaskState.ready TaskState.ready).1.media.length = 1 ∧
     (runSchedule
        (MediaPost.mk MediaType.photo [1] (PerceptualOutcome.ok ['a', 'b']) 7 "alice" 11 1 10)
        (MediaPost.mk MediaType.photo [1] (PerceptualOutcome.ok ['a', 'b']) 8 "bob" 12 2 20)
        [true, true, false, false] (DbState.mk [] [] [] [])
        TaskState.ready TaskState.ready).1.duplicates.length = 1) := by
  decide

theorem findLoop_singleton_hit (h : Hash) (t : Nat) (r : MediaRecord) (d : Nat)
    (hd : calculateHashDistance h r.hash = some d) (hdle : d ≤ t) :
    (findLoop h t [r] none (t + 1)).1 = some r := by
  have hlt : d < t + 1 := by omega
  simp [findLoop, hd, hdle, hlt]

/-- C9: duplicate matching is global across conversations — `findSimilarMedia`
never consults the chat id, so a media item first recorded from one chat is
reported as a duplicate of that record when an identical (for videos) or
within-threshold (for photos) item arrives in any other chat. -/
theorem C9_matching_global_across_chats
    (st : DbState) (r : MediaRecord) (hst : st.media = [r])
    (cid2 : Int) (hcid : cid2 ≠ r.chatId)
    (mid uid : Nat) (uname : String) (now : Nat) :
    (∀ (buf : List Nat) (po : PerceptualOutcome),
      r.mediaType = MediaType.photo →
      distLE (calculateHashDistance (hashMedia buf MediaType.photo po) r.hash)
        defaultSimilarityThreshold = true →
      processMessage st (Msg.mk cid2 mid uid uname (MsgContent.photo buf po)) true now =
        (trackDuplicate st uid uname now,
         some (DuplicateNotice.mk MediaType.photo r.userId r.username r.timestamp))) ∧
    (∀ buf : List Nat,
      r.mediaType = MediaType.video →
      r.hash = cryptoHash buf →
      processMessage st (Msg.mk cid2 mid uid uname (MsgContent.video buf)) true now =
        (trackDuplicate st uid uname now,
         some (DuplicateNotice.mk MediaType.video r.userId r.username r.timestamp))) := by
  constructor
  · intro buf po hmtr hdist
    obtain ⟨d, hd, hdle⟩ := (distLE_true_iff _ _).mp hdist
    have hfind : findSimilarMedia st.media (hashMedia buf MediaType.photo po)
        MediaType.photo defaultSimilarityThreshold = some r := by
      rw [hst]
      unfold findSimilarMedia
      rw [if_neg (by simp [isPerceptualType])]
      have hfilter : List.filter (fun m => isPerceptualType m.mediaType) [r] = [r] := by
        simp [List.filter, hmtr, isPerceptualType]
      rw [hfilter]
      exact findLoop_singleton_hit _ _ r d hd hdle
    have hstep := processMessage_media st
      (Msg.mk cid2 mid uid uname (MsgContent.photo buf po)) now rfl
    rw [hfind] at hstep
    rw [hstep]
  · intro buf hmtr hhash
    have hfind : findSimilarMedia st.media
        (hashMedia buf MediaType.video PerceptualOutcome.err)
        MediaType.video defaultSimilarityThreshold = some r := by
      rw [hst]
      unfold findSimilarMedia
      rw [if_pos (show isPerceptualType MediaType.video = false from rfl)]
      have hpr : (r.hash == hashMedia buf MediaType.video PerceptualOutcome.err) = true := by
        have : hashMedia buf MediaType.video PerceptualOutcome.err = cryptoHash buf := rfl
        rw [this, hhash]
        exact beq_self_eq_true (cryptoHash buf)
      simp [List.find?, hpr]
    have hstep := processMessage_media st
      (Msg.mk cid2 mid uid uname (MsgContent.video buf)) now rfl
    rw [hfind] at hstep
    rw [hstep]

/-- C9 witness: a photo recorded from chat 1 is matched when an identical photo
arrives in chat 2. -/
theorem C9_witness :
    (DbState.mk [MediaRecord.mk ['a', 'b'] 1 7 "alice" MediaType.photo 10 1] [] [] []).media =
      [MediaRecord.mk ['a', 'b'] 1 7 "alice" MediaType.photo 10 1] ∧
    (2 : Int) ≠ (MediaRecord.mk ['a', 'b'] 1 7 "alice" MediaType.photo 10 1).chatId ∧
    processMessage
        (DbState.mk [MediaRecord.mk ['a', 'b'] 1 7 "alice" MediaType.photo 10 1] [] [] [])
        (Msg.mk 2 12 8 "bob"
          (MsgContent.photo [1] (PerceptualOutcome.ok ['a', 'b']))) true 20 =
      (trackDuplicate
        (DbState.mk [MediaRecord.mk ['a', 'b'] 1 7 "alice" MediaType.photo 10 1] [] [] [])
        8 "bob" 20,
       some (DuplicateNotice.mk MediaType.photo 7 "alice" 10)) := by
  refine ⟨rfl, by decide, ?_⟩
  exact (C9_matching_global_across_chats
    (DbState.mk [MediaRecord.mk ['a', 'b'] 1 7 "alice" MediaType.photo 10 1] [] [] [])
    (MediaRecord.mk ['a', 'b'] 1 7 "alice" MediaType.photo 10 1) rfl
    2 (by decide) 12 8 "bob" 20).1 [1] (PerceptualOutcome.ok ['a', 'b'])
    rfl (by decide)

/-- C10: an inbound text message starting with `/` (a command) leaves the
whole persisted state unchanged and produces no duplicate notification,
whether or not the chat is a group. -/
theorem C10_command_text_changes_nothing (st : DbState) (msg : Msg) (isGrp : Bool)
    (now : Nat) (body : List Char)
    (hc : msg.content = MsgContent.text ('/' :: body)) :
    processMessage st msg isGrp now = (st, none) := by
  have hcmd : isCommandMsg msg.content = true := by
    rw [hc]
    rfl
  unfold processMessage
  rw [if_neg (by
    intro h
    rw [h.2] at hcmd
    exact Bool.false_ne_true hcmd)]
  rw [if_pos hcmd]

/-- C10 witness: a `/stats` command message in a group leaves a nonempty state
untouched. -/
theorem C10_witness :
    (Msg.mk 1 5 7 "alice"
      (MsgContent.text ('/' :: ['s', 't', 'a', 't', 's']))).content =
      MsgContent.text ('/' :: ['s', 't', 'a', 't', 's']) ∧
    processMessage
        (DbState.mk [MediaRecord.mk ['a'] 1 7 "alice" MediaType.photo 10 1] [] [] [])
        (Msg.mk 1 5 7 "alice" (MsgContent.text ('/' :: ['s', 't', 'a', 't', 's'])))
        true 50 =
      (DbState.mk [MediaRecord.mk ['a'] 1 7 "alice" MediaType.photo 10 1] [] [] [], none) :=
  ⟨rfl, C10_command_text_changes_nothing
    (DbState.mk [MediaRecord.mk ['a'] 1 7 "alice" MediaType.photo 10 1] [] [] [])
    (Msg.mk 1 5 7 "alice" (MsgContent.text ('/' :: ['s', 't', 'a', 't', 's'])))
    true 50 ['s', 't', 'a', 't', 's'] rfl⟩

end SpamBot
